import Mathlib

/-!
Verification development for the node launcher core: runtime binary
resolution and capabilities, electron version remapping, process-listing
parsing, opener-chain resolution, restart semantics, bootloader file
resolution, injected environment construction, telemetry gathering, and
the persistence of the seen-openers map.

Definitions are shallow embeddings of `src/targets/node/nodeLauncherBase.ts`
and, where the implementation file is absent from the sources (the binary
provider and the process-tree parsers, present only through their tests),
models written from the specification and pinned by the test data.
-/

/-- Semantic version triple, embedding `common/semver.ts`'s `Semver`. -/
structure Semver where
  major : Nat
  minor : Nat
  patch : Nat
deriving DecidableEq, Repr

/-- Lexicographic less-or-equal on versions. -/
def Semver.le (a b : Semver) : Prop :=
  a.major < b.major ∨
    (a.major = b.major ∧
      (a.minor < b.minor ∨ (a.minor = b.minor ∧ a.patch ≤ b.patch)))

/-- Lexicographic strict order on versions. -/
def Semver.lt (a b : Semver) : Prop :=
  a.major < b.major ∨
    (a.major = b.major ∧
      (a.minor < b.minor ∨ (a.minor = b.minor ∧ a.patch < b.patch)))

instance (a b : Semver) : Decidable (Semver.le a b) := by
  unfold Semver.le; exact inferInstance

instance (a b : Semver) : Decidable (Semver.lt a b) := by
  unfold Semver.lt; exact inferInstance

/-- `Semver.min`, returning the smaller of two versions. -/
def Semver.min (a b : Semver) : Semver :=
  if Semver.le a b then a else b

/-- The combination the spec's words would use instead: the larger version. -/
def Semver.max (a b : Semver) : Semver :=
  if Semver.le a b then b else a

/-- The capabilities computed from a runtime version
(`nodeBinaryProvider.ts`'s `Capability`). -/
inductive Capability where
  | useSpacesInRequirePath
  | useInspectPublishUid
deriving DecidableEq, Repr

/-- Modelled from the spec: the ordered, monotonic {capability → minimum
version} table consulted by `NodeBinary.has` (`nodeBinaryProvider.ts` is
absent from the sources; thresholds are pinned by `nodeBinaryProvider.test.ts`:
12.0.0 gains spaces-in-require-path, 12.8.0 gains inspect-publish-uid). -/
def capabilityThreshold : Capability → Semver
  | .useSpacesInRequirePath => ⟨12, 0, 0⟩
  | .useInspectPublishUid => ⟨12, 8, 0⟩

/-- A resolved runtime binary: path and optional precise version
(`nodeBinaryProvider.ts`'s `NodeBinary`). -/
structure NodeBinary where
  path : String
  version : Option Semver
deriving DecidableEq, Repr

/-- Modelled from the spec: `NodeBinary.has(capability, assumeIfUnknown)`.
An imprecisely known version yields `assumeIfUnknown` (default true); a
precise version is compared against the threshold table. -/
def NodeBinary.has (b : NodeBinary) (c : Capability) (assumeIfUnknown : Bool := true) : Bool :=
  match b.version with
  | none => assumeIfUnknown
  | some v => decide (Semver.le (capabilityThreshold c) v)

/-- Modelled from the spec: the fixed {alternate-host major version →
equivalent minimum runtime version} table for Electron (pinned by the
electron-versioning tests: major 5 ↦ 10.0.0, majors 6 and 9 ↦ 12.0.0). -/
def electronNodeVersion (electronMajor : Nat) : Semver :=
  if 6 ≤ electronMajor then ⟨12, 0, 0⟩ else ⟨10, 0, 0⟩

/-- Modelled from the spec: the version assigned to an Electron binary —
the table-mapped version combined via minimum with the detectable version
of the underlying runtime binary (pinned by the test
named uses minimum node version). -/
def resolveElectronVersion (electronVersion : Semver) (nodeVersion : Option Semver) : Semver :=
  match nodeVersion with
  | none => electronNodeVersion electronVersion.major
  | some nv => Semver.min (electronNodeVersion electronVersion.major) nv

/-- The same combination step written as the spec's sentence states it,
with maximum in place of minimum; kept for comparison against
`resolveElectronVersion`. -/
def resolveElectronVersionSpecMax (electronVersion : Semver) (nodeVersion : Option Semver) :
    Semver :=
  match nodeVersion with
  | none => electronNodeVersion electronVersion.major
  | some nv => Semver.max (electronNodeVersion electronVersion.major) nv

/-- Structured failures of binary resolution (`dap/errors.ts` codes
`CannotFindNodeBinary` and `NodeBinaryOutOfDate`). -/
inductive ResolveError where
  | cannotFindBinary
  | outOfDate (detected : Semver) (minimum : Semver)
deriving DecidableEq, Repr

/-- Modelled from the spec: the resolution/validation skeleton of
`resolveAndValidate` (`nodeBinaryProvider.ts` is absent from the sources;
behaviour pinned by its tests). Inputs: whether the requested executable is
a package-manager front-end, the resolved path of the requested executable
(none when it cannot be located), whether a runtime binary could be located
and its detected version, and the configured minimum version. -/
def resolveAndValidate (isPackageManager : Bool) (resolvedPath : Option String)
    (runtimeLocated : Bool) (detectedVersion : Option Semver) (minVersion : Semver) :
    Except ResolveError NodeBinary :=
  match resolvedPath with
  | none => .error .cannotFindBinary
  | some p =>
    if runtimeLocated then
      match detectedVersion with
      | some v =>
        if Semver.lt v minVersion then .error (.outOfDate v minVersion)
        else .ok ⟨p, some v⟩
      | none => .ok ⟨p, none⟩
    else if isPackageManager then .ok ⟨p, none⟩
    else .error .cannotFindBinary

/-- Drop leading space characters from a character list. -/
def dropSpaces : List Char → List Char
  | [] => []
  | c :: rest => if c = ' ' then dropSpaces rest else c :: rest

/-- Split off the leading run of non-space characters. -/
def takeToken : List Char → List Char × List Char
  | [] => ([], [])
  | c :: rest =>
    if c = ' ' then ([], c :: rest)
    else
      let (t, r) := takeToken rest
      (c :: t, r)

/-- Accumulating decimal parse; fails on any non-digit. -/
def parseNatAux : List Char → Nat → Option Nat
  | [], acc => some acc
  | c :: rest, acc =>
    if c.isDigit then parseNatAux rest (acc * 10 + (c.toNat - 48)) else none

/-- Parse a nonempty all-digit token as a number. -/
def parseNatChars (cs : List Char) : Option Nat :=
  match cs with
  | [] => none
  | _ => parseNatAux cs 0

/-- One parsed process record (`ui/processTree/processTree.ts`'s `IProcess`). -/
structure IProcess where
  pid : Nat
  ppid : Nat
  command : String
  args : String
deriving DecidableEq, Repr

/-- Modelled from the spec: the POSIX listing line parser
(`ui/processTree/posixProcessTree.ts` is absent from the sources; behaviour
pinned by `process-tree.test.ts`). A line parses when it holds a numeric pid
column, a numeric ppid column, the (possibly truncated) binary column, and a
command column; the record's command is the first whitespace token of the
full command column and args is everything after it. -/
def posixParseLine (cs : List Char) : Option IProcess :=
  let (pidT, r1) := takeToken (dropSpaces cs)
  match parseNatChars pidT with
  | none => none
  | some pid =>
    let (ppidT, r2) := takeToken (dropSpaces r1)
    match parseNatChars ppidT with
    | none => none
    | some ppid =>
      let (binT, r3) := takeToken (dropSpaces r2)
      match binT with
      | [] => none
      | _ =>
        let (cmdT, r4) := takeToken (dropSpaces r3)
        match cmdT with
        | [] => none
        | _ => some ⟨pid, ppid, String.mk cmdT, String.mk (dropSpaces r4)⟩

/-- Modelled from the spec: the Darwin listing line parser
(`ui/processTree/darwinProcessTree.ts` is absent from the sources; behaviour
pinned by `process-tree.test.ts`). The record's command is the binary column
with a leading slash removed (it may be truncated by the column width) and
args is the entire command column. -/
def darwinParseLine (cs : List Char) : Option IProcess :=
  let (pidT, r1) := takeToken (dropSpaces cs)
  match parseNatChars pidT with
  | none => none
  | some pid =>
    let (ppidT, r2) := takeToken (dropSpaces r1)
    match parseNatChars ppidT with
    | none => none
    | some ppid =>
      let (binT, r3) := takeToken (dropSpaces r2)
      match binT with
      | [] => none
      | _ =>
        let command := match binT with
          | '/' :: restBin => restBin
          | other => other
        let args := dropSpaces r3
        match args with
        | [] => none
        | _ => some ⟨pid, ppid, String.mk command, String.mk args⟩

/-- Split a character list into lines at newline characters. -/
def splitLinesChars : List Char → List (List Char)
  | [] => [[]]
  | c :: rest =>
    if c = '\n' then [] :: splitLinesChars rest
    else
      match splitLinesChars rest with
      | l :: ls => (c :: l) :: ls
      | [] => [[c]]

/-- Parse a full listing with a per-line parser, skipping lines that do not
parse (the header among them). -/
def parseListing (parseLine : List Char → Option IProcess) (s : String) : List IProcess :=
  (splitLinesChars s.data).filterMap parseLine

/-- `lookup(reducer, seed)`: fold every parsed record through the caller's
reducer in the tool's native output order. -/
def processLookup {α : Type} (parseLine : List Char → Option IProcess) (s : String)
    (f : IProcess → α → α) (seed : α) : α :=
  (parseListing parseLine s).foldl (fun acc e => f e acc) seed

/-- The first whitespace token of a string (used to state the claim's
first-token rule). -/
def firstToken (s : String) : String :=
  String.mk (takeToken (dropSpaces s.data)).1

/-- Everything after the first whitespace token, leading spaces dropped. -/
def afterFirstToken (s : String) : String :=
  String.mk (dropSpaces (takeToken (dropSpaces s.data)).2)

/-- Association-list lookup for the seen-openers map: `seenOpeners.get(k)`
yields the recorded `openedBy` when the key is present. -/
def lookupSeen (seen : List (String × Option String)) (k : String) : Option (Option String) :=
  match seen with
  | [] => none
  | (k2, v) :: rest => if k2 = k then some v else lookupSeen rest k

/-- `Map.set` on the seen-openers map: replace in place when the key exists,
else append. -/
def setSeen (seen : List (String × Option String)) (k : String) (v : Option String) :
    List (String × Option String) :=
  match seen with
  | [] => [(k, v)]
  | (k2, v2) :: rest =>
    if k2 = k then (k, v) :: rest else (k2, v2) :: setSeen rest k v

/-- The opener-chain walk of `_startSession` (nodeLauncherBase.ts lines
402-407): while the current id is present, not a live target, and present in
the seen-openers map, replace it with that map's `openedBy` value. `fuel`
bounds the walk (the code has no cycle guard); `none` signals exhaustion,
`some r` the id at which the loop stopped. -/
def walkOpener (live : String → Bool) (seen : List (String × Option String)) :
    Nat → Option String → Option (Option String)
  | 0, _ => none
  | _ + 1, none => some none
  | fuel + 1, some id =>
    if live id then some (some id)
    else
      match lookupSeen seen id with
      | none => some (some id)
      | some openedBy => walkOpener live seen fuel openedBy

/-- The parent the new target receives: the living opener id's target when
it is live, else none (nodeLauncherBase.ts line 417). -/
def resolvedParent (live : String → Bool) (walked : Option (Option String)) : Option String :=
  match walked with
  | some (some id) => if live id then some id else none
  | _ => none

/-- The externally observable steps of `restart` in their order. -/
inductive RestartAction where
  | clearProgram
  | stopProgram
  | awaitConnectionsOrTimeout
  | warnTimeout
  | forceCloseAll
  | relaunch
deriving DecidableEq, Repr

/-- The launcher state `restart` reads and writes: whether a run is active,
whether a program handle exists, and the tracked server connections. -/
structure RestartState where
  hasRun : Bool
  hasProgram : Bool
  connections : List Nat
deriving DecidableEq, Repr

/-- Embedding of `restart` (nodeLauncherBase.ts lines 195-228) as a step
trace. `closedInTime` is the outcome of the race between the fixed 2000 ms
delay and all tracked connections signaling disconnect. -/
def restartModel (s : RestartState) (closedInTime : Bool) :
    RestartState × List RestartAction :=
  if s.hasRun = false then (s, [])
  else if s.hasProgram then
    if closedInTime then
      ({ s with hasProgram := false },
        [.clearProgram, .stopProgram, .awaitConnectionsOrTimeout, .relaunch])
    else
      ({ s with hasProgram := false, connections := [] },
        [.clearProgram, .stopProgram, .awaitConnectionsOrTimeout, .warnTimeout,
          .forceCloseAll, .relaunch])
  else (s, [.relaunch])

/-- The result of bootloader file resolution: the path interpolated into the
preload flag, the wrapper file written (path and contents), if any, and the
path the disposer deletes, if any. -/
structure BootloaderFile where
  interpolatedPath : String
  writtenFile : Option (String × String)
  disposeDeletes : Option String
deriving DecidableEq, Repr

/-- Model of `path.join` for the paths this code builds. -/
def pathJoin (a b : String) : String := a ++ "/" ++ b

/-- `s.includes(' ')`: whether a path holds a space character. -/
def containsSpace (s : String) : Bool := s.data.any (fun c => c = ' ')

/-- The `require(<path>)` wrapper contents (`JSON.stringify` of a path with
no characters needing escapes is plain quoting). -/
def wrapperContents (targetPath : String) : String :=
  "require(" ++ "\"" ++ targetPath ++ "\"" ++ ")"

/-- Embedding of `getBootloaderFile` (nodeLauncherBase.ts lines 498-527).
Inputs: the forward-slashed installed bootloader path, whether the resolved
binary has the spaces-in-require-path capability, the OS temp directory, and
the working directory when known. -/
def getBootloaderFile (targetPath : String) (hasSpacesCapability : Bool)
    (tmpdir : String) (cwd : Option String) : BootloaderFile :=
  if (containsSpace targetPath) = false then
    ⟨targetPath, none, none⟩
  else if hasSpacesCapability then
    ⟨"\"" ++ targetPath ++ "\"", none, none⟩
  else if (containsSpace tmpdir) = false ∨ cwd = none then
    let tmpPath := pathJoin tmpdir "vscode-js-debug-bootloader.js"
    ⟨tmpPath, some (tmpPath, wrapperContents targetPath), none⟩
  else
    match cwd with
    | none => ⟨pathJoin tmpdir "vscode-js-debug-bootloader.js", none, none⟩
    | some c =>
      let nearPath := pathJoin c ".vscode-js-debug-bootloader.js"
      ⟨"./" ++ ".vscode-js-debug-bootloader.js",
        some (nearPath, wrapperContents targetPath), some nearPath⟩

/-- Embedding of the `NODE_OPTIONS` construction in `resolveEnvironment`
(nodeLauncherBase.ts lines 322-338): start from the preload flag requiring
the bootloader path, append the merged base environment's prior value when
truthy (nonempty), then the ambient process environment's prior value when
truthy. -/
def buildNodeOptions (bootloaderPath : String) (baseOpts globalOpts : Option String) : String :=
  let e0 := " --require " ++ bootloaderPath ++ " "
  let e1 := match baseOpts with
    | some s => if s = "" then e0 else e0 ++ " " ++ s ++ " "
    | none => e0
  match globalOpts with
  | some s => if s = "" then e1 else e1 ++ " " ++ s
  | none => e1

/-- Process telemetry read back from the runtime (`IProcessTelemetry`,
fields relevant to the model). -/
structure ProcessTelemetry where
  processId : Nat
  nodeVersion : String
  architecture : String
deriving DecidableEq, Repr

/-- The outcome of one `Runtime.evaluate` poll as `gatherTelemetryFromCdp`
classifies it: the owning program handle was cleared between polls; the
evaluation produced no usable value; it produced a truthy non-object (the
process-not-defined transient); or it produced the telemetry object. -/
inductive PollOutcome where
  | cleared
  | noValue
  | nonObject
  | success (t : ProcessTelemetry)
deriving DecidableEq, Repr

/-- An observable effect of `gatherTelemetryFromCdp`: a report to the
telemetry collaborator, a forward to the process handle, or a retry delay
of the given milliseconds. -/
inductive GatherEvent where
  | report (t : ProcessTelemetry)
  | forward (t : ProcessTelemetry)
  | delayMs (n : Nat)
deriving DecidableEq, Repr

/-- Embedding of the retry loop of `gatherTelemetryFromCdp`
(nodeLauncherBase.ts lines 536-572): at retry index `i`, a cleared program
handle or a valueless result returns no telemetry; a truthy non-object waits
`50 * 2 ^ i` ms and retries; an object is reported and forwarded once.
`fuel` counts the remaining loop iterations. -/
def gatherAux (polls : Nat → PollOutcome) : Nat → Nat → Option ProcessTelemetry × List GatherEvent
  | 0, _ => (none, [])
  | fuel + 1, i =>
    match polls i with
    | .cleared => (none, [])
    | .noValue => (none, [])
    | .success t => (some t, [.report t, .forward t])
    | .nonObject =>
      let rest := gatherAux polls fuel (i + 1)
      (rest.1, .delayMs (50 * 2 ^ i) :: rest.2)

/-- `gatherTelemetryFromCdp` runs the loop for at most 8 attempts starting
at retry index 0. -/
def gatherTelemetry (polls : Nat → PollOutcome) : Option ProcessTelemetry × List GatherEvent :=
  gatherAux polls 8 0

/-- The sequence of exponential-backoff delays taken for `k` consecutive
retries starting at retry index `i`. -/
def backoffDelays : Nat → Nat → List GatherEvent
  | _, 0 => []
  | i, k + 1 => .delayMs (50 * 2 ^ i) :: backoffDelays (i + 1) k

/-- The launcher-lifetime state the seen-openers invariant ranges over:
whether a run is active, the live target ids, and the seen-openers map. -/
structure ManagerState where
  hasRun : Bool
  targets : List String
  seenOpeners : List (String × Option String)
deriving DecidableEq, Repr

/-- The operations of the launcher lifetime that touch this state: a
successful handshake (`_startSession`), a target's own disconnect, full stop
(`_stopServer`), and a new launch. `restart` touches only the program handle
and connections, so it is identity here. -/
inductive ManagerOp where
  | startSession (targetId : String) (openerId : Option String)
  | targetDisconnect (targetId : String)
  | stopServer
  | launchOp
  | restartOp
deriving DecidableEq, Repr

/-- One step of the launcher lifetime. `_startSession` returns early when no
run is active; otherwise it records the new target's opener into the
seen-openers map (`Map.set`) and adds the target to the live map.
`_stopServer` clears the run (live targets then drain through their own
disconnect events); no operation deletes from the seen-openers map. -/
def applyOp (s : ManagerState) : ManagerOp → ManagerState
  | .startSession tid oid =>
    if s.hasRun then
      { s with
        targets := tid :: s.targets.erase tid,
        seenOpeners := setSeen s.seenOpeners tid oid }
    else s
  | .targetDisconnect tid => { s with targets := s.targets.erase tid }
  | .stopServer => { s with hasRun := false }
  | .launchOp => { s with hasRun := true }
  | .restartOp => s

/-- A whole launcher lifetime: fold the operations in order. -/
def applyOps (s : ManagerState) (ops : List ManagerOp) : ManagerState :=
  ops.foldl applyOp s

/-- The literal Darwin sample listing from `process-tree.test.ts`. -/
def darwinSampleListing : String :=
  "  PID  PPID BINARY           COMMAND\n  380     1 /usr/sbin/cfpref /usr/sbin/cfprefsd agent\n  381     1 /usr/libexec/Use /usr/libexec/UserEventAgent (Aqua)\n  383     1 /usr/sbin/distno /usr/sbin/distnoted agent\n  384     1 /usr/libexec/USB /usr/libexec/USBAgent\n  387     1 /System/Library/ /System/Library/Frameworks/CoreTelephony.framework/Support/CommCenter -L\n  389     1 /usr/libexec/lsd /usr/libexec/lsd\n  390     1 /usr/libexec/tru /usr/libexec/trustd --agent\n  391     1 /usr/libexec/sec /usr/libexec/secd\n  392     2 /System/Library/ /System/Library/PrivateFrameworks/CloudKitDaemon.framework/Support/cloudd"

/-- The records the Darwin sample is expected to parse to. -/
def darwinExpected : List IProcess :=
  [⟨380, 1, "usr/sbin/cfpref", "/usr/sbin/cfprefsd agent"⟩,
   ⟨381, 1, "usr/libexec/Use", "/usr/libexec/UserEventAgent (Aqua)"⟩,
   ⟨383, 1, "usr/sbin/distno", "/usr/sbin/distnoted agent"⟩,
   ⟨384, 1, "usr/libexec/USB", "/usr/libexec/USBAgent"⟩,
   ⟨387, 1, "System/Library/",
     "/System/Library/Frameworks/CoreTelephony.framework/Support/CommCenter -L"⟩,
   ⟨389, 1, "usr/libexec/lsd", "/usr/libexec/lsd"⟩,
   ⟨390, 1, "usr/libexec/tru", "/usr/libexec/trustd --agent"⟩,
   ⟨391, 1, "usr/libexec/sec", "/usr/libexec/secd"⟩,
   ⟨392, 2, "System/Library/",
     "/System/Library/PrivateFrameworks/CloudKitDaemon.framework/Support/cloudd"⟩]

/-- The literal POSIX sample listing from `process-tree.test.ts`. -/
def posixSampleListing : String :=
  "   PID   PPID BINARY          COMMAND\n   351      1 systemd         /lib/systemd/systemd --user\n   352    351 (sd-pam)        (sd-pam)\n   540      1 sh              sh /home/connor/.vscode-server-insiders/bin/bbf00d8ea6aa7e825ca3393364d746fe401d3299/server.sh --host=127.0.0.1 --enable-remote-auto-shutdown --port=0\n   548    540 node            /home/connor/.vscode-server-insiders/bin/bbf00d8ea6aa7e825ca3393364d746fe401d3299/node /home/connor/.vscode-server-insiders/bin/bbf00d8ea6aa7e825ca3393364d746fe401d3299/out/vs/server/main.js --host=127.0.0.1 --enable-remote-auto-shutdown --port=0\n  6557   6434 sshd            sshd: connor@notty\n  6558   6557 bash            bash\n  7281   7199 sshd            sshd: connor@pts/0\n  7282   7281 bash            -bash\n  9880  99219 bash            /bin/bash"

/-- The records the POSIX sample is expected to parse to. -/
def posixExpected : List IProcess :=
  [⟨351, 1, "/lib/systemd/systemd", "--user"⟩,
   ⟨352, 351, "(sd-pam)", ""⟩,
   ⟨540, 1, "sh",
     "/home/connor/.vscode-server-insiders/bin/bbf00d8ea6aa7e825ca3393364d746fe401d3299/server.sh --host=127.0.0.1 --enable-remote-auto-shutdown --port=0"⟩,
   ⟨548, 540,
     "/home/connor/.vscode-server-insiders/bin/bbf00d8ea6aa7e825ca3393364d746fe401d3299/node",
     "/home/connor/.vscode-server-insiders/bin/bbf00d8ea6aa7e825ca3393364d746fe401d3299/out/vs/server/main.js --host=127.0.0.1 --enable-remote-auto-shutdown --port=0"⟩,
   ⟨6557, 6434, "sshd:", "connor@notty"⟩,
   ⟨6558, 6557, "bash", ""⟩,
   ⟨7281, 7199, "sshd:", "connor@pts/0"⟩,
   ⟨7282, 7281, "-bash", ""⟩,
   ⟨9880, 99219, "/bin/bash", ""⟩]

theorem Semver.le_refl (a : Semver) : Semver.le a a := by
  unfold Semver.le; omega

theorem Semver.lt_le {a b : Semver} (h : Semver.lt a b) : Semver.le a b := by
  unfold Semver.lt at h; unfold Semver.le; omega

theorem Semver.le_trans {a b c : Semver} (h1 : Semver.le a b) (h2 : Semver.le b c) :
    Semver.le a c := by
  unfold Semver.le at *; omega

theorem Semver.le_of_not_le {a b : Semver} (h : ¬Semver.le a b) : Semver.le b a := by
  unfold Semver.le at *; omega

theorem Semver.min_le_left (a b : Semver) : Semver.le (Semver.min a b) a := by
  unfold Semver.min
  by_cases h : Semver.le a b
  · simp [h, Semver.le_refl]
  · simp [h, Semver.le_of_not_le h]

theorem Semver.min_le_right (a b : Semver) : Semver.le (Semver.min a b) b := by
  unfold Semver.min
  by_cases h : Semver.le a b
  · simp [h]
  · simp [h, Semver.le_refl]

/-- C4: capability thresholds are monotonic in version: for every capability,
whenever a precisely versioned binary at version A has the capability and
A < B, a binary at version B has it too; and a 12.0.0 binary has
spaces-in-require-path but not inspect-publish-uid, while a 12.8.0 binary
has both. -/
theorem capability_thresholds_monotonic :
    (∀ (c : Capability) (p q : String) (a b : Semver), Semver.lt a b →
        (NodeBinary.mk p (some a)).has c = true →
        (NodeBinary.mk q (some b)).has c = true) ∧
    (NodeBinary.mk "node" (some ⟨12, 0, 0⟩)).has .useSpacesInRequirePath = true ∧
    (NodeBinary.mk "node" (some ⟨12, 0, 0⟩)).has .useInspectPublishUid = false ∧
    (NodeBinary.mk "node" (some ⟨12, 8, 0⟩)).has .useSpacesInRequirePath = true ∧
    (NodeBinary.mk "node" (some ⟨12, 8, 0⟩)).has .useInspectPublishUid = true := by
  refine ⟨?_, by decide, by decide, by decide, by decide⟩
  intro c p q a b hab hhas
  unfold NodeBinary.has at *
  simp only [decide_eq_true_eq] at *
  exact Semver.le_trans hhas (Semver.lt_le hab)

/-- Witness for C4 at a concrete pair of versions. -/
theorem capability_thresholds_monotonic_witness :
    (NodeBinary.mk "m" (some ⟨13, 1, 0⟩)).has .useSpacesInRequirePath = true :=
  capability_thresholds_monotonic.1 .useSpacesInRequirePath "node" "m"
    ⟨12, 0, 0⟩ ⟨13, 1, 0⟩ (by decide) (by decide)

/-- C5 counterexample: combining via maximum, as the claim states it, cannot
reproduce the claim's own example — electron 6.1.2 with underlying node
14.5.0 must resolve to 12.0.0, yet the maximum combination yields 14.5.0. -/
theorem electron_combination_max_counterexample :
    resolveElectronVersionSpecMax ⟨6, 1, 2⟩ (some ⟨14, 5, 0⟩) = ⟨14, 5, 0⟩ ∧
    (⟨14, 5, 0⟩ : Semver) ≠ ⟨12, 0, 0⟩ ∧
    resolveElectronVersion ⟨6, 1, 2⟩ (some ⟨14, 5, 0⟩) = ⟨12, 0, 0⟩ := by
  refine ⟨by decide, by decide, by decide⟩

/-- C5 amended: the alternate host's major version is mapped through the
fixed table and combined via minimum with the underlying runtime's version:
electron 6.1.2 with node 14.5.0 resolves to 12.0.0, electron 9.0.0 with node
10.0.0 to 10.0.0, electron 5.1.2 with node 14.5.0 to 10.0.0, and the result
never exceeds either the table-mapped version or the runtime's version. -/
theorem electron_combination_min :
    resolveElectronVersion ⟨6, 1, 2⟩ (some ⟨14, 5, 0⟩) = ⟨12, 0, 0⟩ ∧
    resolveElectronVersion ⟨9, 0, 0⟩ (some ⟨10, 0, 0⟩) = ⟨10, 0, 0⟩ ∧
    resolveElectronVersion ⟨5, 1, 2⟩ (some ⟨14, 5, 0⟩) = ⟨10, 0, 0⟩ ∧
    (∀ (e nv : Semver),
      Semver.le (resolveElectronVersion e (some nv)) (electronNodeVersion e.major) ∧
      Semver.le (resolveElectronVersion e (some nv)) nv) := by
  refine ⟨by decide, by decide, by decide, ?_⟩
  intro e nv
  exact ⟨Semver.min_le_left _ _, Semver.min_le_right _ _⟩

/-- C6: a package-manager front-end whose runtime cannot be located resolves
successfully with an undefined version; a located runtime below the
configured minimum still fails as out of date, package manager or not. -/
theorem package_manager_resolution :
    (∀ (p : String) (minV : Semver),
        resolveAndValidate true (some p) false none minV = .ok ⟨p, none⟩) ∧
    (∀ (pm : Bool) (p : String) (v minV : Semver), Semver.lt v minV →
        resolveAndValidate pm (some p) true (some v) minV =
          .error (.outOfDate v minV)) := by
  constructor
  · intro p minV
    simp [resolveAndValidate]
  · intro pm p v minV hlt
    simp [resolveAndValidate, hlt]

/-- Witness for C6 at concrete versions and paths. -/
theorem package_manager_resolution_witness :
    resolveAndValidate true (some "/w/npm") true (some ⟨7, 0, 0⟩) ⟨8, 0, 0⟩ =
      .error (.outOfDate ⟨7, 0, 0⟩ ⟨8, 0, 0⟩) :=
  package_manager_resolution.2 true "/w/npm" ⟨7, 0, 0⟩ ⟨8, 0, 0⟩ (by decide)

/-- C1: the opener-chain walk stops at the first id that is live or absent
from the seen-openers map; and when target C declares opener B, B was seen
with opener A and is no longer live, and A is live, the walk resolves C's
ancestor to A and parents C to A's target. -/
theorem opener_chain_resolution :
    (∀ (live : String → Bool) (seen : List (String × Option String)) (fuel : Nat)
        (cur : Option String) (r : String),
        walkOpener live seen fuel cur = some (some r) →
        live r = true ∨ lookupSeen seen r = none) ∧
    (walkOpener (fun s => s == "A") [("B", some "A")] 2 (some "B") = some (some "A") ∧
      resolvedParent (fun s => s == "A")
        (walkOpener (fun s => s == "A") [("B", some "A")] 2 (some "B")) = some "A") := by
  refine ⟨?_, by decide, by decide⟩
  intro live seen fuel
  induction fuel with
  | zero => intro cur r h; simp [walkOpener] at h
  | succ n ih =>
    intro cur r h
    cases cur with
    | none => simp [walkOpener] at h
    | some id =>
      rw [walkOpener] at h
      by_cases hl : live id = true
      · simp [hl] at h
        subst h
        exact Or.inl hl
      · simp [hl] at h
        cases hseen : lookupSeen seen id with
        | none =>
          rw [hseen] at h
          simp at h
          subst h
          exact Or.inr hseen
        | some openedBy =>
          rw [hseen] at h
          exact ih openedBy r h

/-- Witness for C1: the stop property applied to the two-step chain. -/
theorem opener_chain_resolution_witness :
    (fun s => s == "A") "A" = true ∨ lookupSeen [("B", some "A")] "A" = none :=
  opener_chain_resolution.1 (fun s => s == "A") [("B", some "A")] 2 (some "B") "A" (by decide)

/-- C2: restart is a no-op without an active run; with a program handle it
clears the handle, then stops, then races the timeout against the tracked
connections disconnecting; on timeout it force-closes every tracked
connection; and in every active-run case the relaunch is the final step,
never skipped. -/
theorem restart_detach_race_forceclose :
    (∀ (s : RestartState) (closed : Bool), s.hasRun = false →
        restartModel s closed = (s, [])) ∧
    (∀ s : RestartState, s.hasRun = true → s.hasProgram = true →
        restartModel s true =
          ({ s with hasProgram := false },
            [.clearProgram, .stopProgram, .awaitConnectionsOrTimeout, .relaunch]) ∧
        restartModel s false =
          ({ s with hasProgram := false, connections := [] },
            [.clearProgram, .stopProgram, .awaitConnectionsOrTimeout, .warnTimeout,
              .forceCloseAll, .relaunch])) ∧
    (∀ (s : RestartState) (closed : Bool), s.hasRun = true →
        (restartModel s closed).2.getLast? = some .relaunch) := by
  refine ⟨?_, ?_, ?_⟩
  · intro s closed hr
    simp [restartModel, hr]
  · intro s hr hp
    constructor
    · simp [restartModel, hr, hp]
    · simp [restartModel, hr, hp]
  · intro s closed hr
    by_cases hp : s.hasProgram = true
    · cases closed <;> simp [restartModel, hr, hp]
    · simp only [Bool.not_eq_true] at hp
      cases closed <;> simp [restartModel, hr, hp]

/-- Witness for C2: a concrete restart under a slow-closing connection. -/
theorem restart_detach_race_forceclose_witness :
    restartModel ⟨true, true, [7]⟩ false =
      (⟨true, false, []⟩,
        [.clearProgram, .stopProgram, .awaitConnectionsOrTimeout, .warnTimeout,
          .forceCloseAll, .relaunch]) :=
  (restart_detach_race_forceclose.2.1 ⟨true, true, [7]⟩ rfl rfl).2

/-- C3: bootloader file resolution in order of first success — the path
unmodified when space-free; the quoted path under the spaces capability; the
`require(<path>)` wrapper in the temp directory when that directory is
space-free or no working directory is known; otherwise the wrapper beside
the working directory under the fixed hidden filename with a deleting
disposer — and every input lands in one of these four tiers. -/
theorem bootloader_file_resolution_tiers :
    (∀ (tp : String) (cap : Bool) (tmp : String) (cwd : Option String),
        (containsSpace tp) = false →
        getBootloaderFile tp cap tmp cwd = ⟨tp, none, none⟩) ∧
    (∀ (tp tmp : String) (cwd : Option String), (containsSpace tp) = true →
        getBootloaderFile tp true tmp cwd = ⟨"\"" ++ tp ++ "\"", none, none⟩) ∧
    (∀ (tp tmp : String) (cwd : Option String), (containsSpace tp) = true →
        ((containsSpace tmp) = false ∨ cwd = none) →
        getBootloaderFile tp false tmp cwd =
          ⟨pathJoin tmp "vscode-js-debug-bootloader.js",
            some (pathJoin tmp "vscode-js-debug-bootloader.js", wrapperContents tp), none⟩) ∧
    (∀ (tp tmp c : String), (containsSpace tp) = true → (containsSpace tmp) = true →
        getBootloaderFile tp false tmp (some c) =
          ⟨"./" ++ ".vscode-js-debug-bootloader.js",
            some (pathJoin c ".vscode-js-debug-bootloader.js", wrapperContents tp),
            some (pathJoin c ".vscode-js-debug-bootloader.js")⟩) ∧
    (∀ (tp : String) (cap : Bool) (tmp : String) (cwd : Option String),
        getBootloaderFile tp cap tmp cwd = ⟨tp, none, none⟩ ∨
        getBootloaderFile tp cap tmp cwd = ⟨"\"" ++ tp ++ "\"", none, none⟩ ∨
        getBootloaderFile tp cap tmp cwd =
          ⟨pathJoin tmp "vscode-js-debug-bootloader.js",
            some (pathJoin tmp "vscode-js-debug-bootloader.js", wrapperContents tp), none⟩ ∨
        (∃ c, cwd = some c ∧
          getBootloaderFile tp cap tmp cwd =
            ⟨"./" ++ ".vscode-js-debug-bootloader.js",
              some (pathJoin c ".vscode-js-debug-bootloader.js", wrapperContents tp),
              some (pathJoin c ".vscode-js-debug-bootloader.js")⟩)) := by
  refine ⟨?_, ?_, ?_, ?_, ?_⟩
  · intro tp cap tmp cwd h1
    simp [getBootloaderFile, h1]
  · intro tp tmp cwd h1
    simp [getBootloaderFile, h1]
  · intro tp tmp cwd h1 h2
    rcases h2 with h2 | h2
    · simp [getBootloaderFile, h1, h2]
    · subst h2
      simp [getBootloaderFile, h1]
  · intro tp tmp c h1 h2
    simp [getBootloaderFile, h1, h2]
  · intro tp cap tmp cwd
    unfold getBootloaderFile
    split_ifs with h1 h2 h3
    · exact Or.inl rfl
    · exact Or.inr (Or.inl rfl)
    · exact Or.inr (Or.inr (Or.inl rfl))
    · cases cwd with
      | none => exact absurd (Or.inr rfl) h3
      | some c => exact Or.inr (Or.inr (Or.inr ⟨c, rfl, rfl⟩))

/-- Witness for C3: a concrete space-laden installation path on a
space-laden temp directory with a known working directory lands in tier 4. -/
theorem bootloader_file_resolution_tiers_witness :
    getBootloaderFile "/a b/boot.js" false "/tmp dir" (some "/cwd") =
      ⟨"./" ++ ".vscode-js-debug-bootloader.js",
        some (pathJoin "/cwd" ".vscode-js-debug-bootloader.js", wrapperContents "/a b/boot.js"),
        some (pathJoin "/cwd" ".vscode-js-debug-bootloader.js")⟩ :=
  bootloader_file_resolution_tiers.2.2.2.1 "/a b/boot.js" "/tmp dir" "/cwd"
    (by decide) (by decide)

/-- C9: the injected runtime-options variable starts with the preload flag
requiring the bootloader path, then the merged base environment's prior
value when present, then the ambient process environment's prior value when
present, in exactly that order. -/
theorem node_options_preload_order :
    (∀ (p b g : String), b ≠ "" → g ≠ "" →
        buildNodeOptions p (some b) (some g) =
          " --require " ++ p ++ " " ++ " " ++ b ++ " " ++ " " ++ g) ∧
    (∀ (p b : String), b ≠ "" →
        buildNodeOptions p (some b) none = " --require " ++ p ++ " " ++ " " ++ b ++ " ") ∧
    (∀ (p g : String), g ≠ "" →
        buildNodeOptions p none (some g) = " --require " ++ p ++ " " ++ " " ++ g) ∧
    (∀ p : String, buildNodeOptions p none none = " --require " ++ p ++ " ") ∧
    (∀ p : String, buildNodeOptions p (some "") (some "") = " --require " ++ p ++ " ") := by
  refine ⟨?_, ?_, ?_, ?_, ?_⟩
  · intro p b g hb hg
    simp [buildNodeOptions, hb, hg]
  · intro p b hb
    simp [buildNodeOptions, hb]
  · intro p g hg
    simp [buildNodeOptions, hg]
  · intro p
    simp [buildNodeOptions]
  · intro p
    simp [buildNodeOptions]

/-- Witness for C9 with both prior values populated. -/
theorem node_options_preload_order_witness :
    buildNodeOptions "/b.js" (some "--x") (some "--y") =
      " --require " ++ "/b.js" ++ " " ++ " " ++ "--x" ++ " " ++ " " ++ "--y" :=
  node_options_preload_order.1 "/b.js" "--x" "--y" (by decide) (by decide)

theorem gatherAux_skip (polls : Nat → PollOutcome) :
    ∀ (k i fuel : Nat), k ≤ fuel → (∀ j, j < k → polls (i + j) = .nonObject) →
    gatherAux polls fuel i =
      ((gatherAux polls (fuel - k) (i + k)).1,
        backoffDelays i k ++ (gatherAux polls (fuel - k) (i + k)).2) := by
  intro k
  induction k with
  | zero =>
    intro i fuel _ _
    simp [backoffDelays]
  | succ k ih =>
    intro i fuel hk hp
    cases fuel with
    | zero => omega
    | succ f =>
      have hp0 : polls i = .nonObject := by
        have h0 := hp 0 (by omega)
        simpa using h0
      have ih2 := ih (i + 1) f (by omega) (fun j hj => by
        have hj1 := hp (j + 1) (by omega)
        have e : i + (j + 1) = i + 1 + j := by omega
        rw [e] at hj1
        exact hj1)
      have e1 : f + 1 - (k + 1) = f - k := by omega
      have e2 : i + (k + 1) = i + 1 + k := by omega
      rw [gatherAux, hp0]
      simp only [ih2, e1, e2, backoffDelays, List.cons_append]

/-- C8: telemetry gathering retries only on truthy non-object results with
a delay of `50 * 2 ^ attempt` ms, up to 8 attempts, returning no telemetry
once exhausted; a cleared program handle between polls yields no telemetry
with no report or forward; a success is reported and forwarded exactly
once; the backoff delays double each attempt; and the retry trace holds
nothing but delays. -/
theorem telemetry_retry_backoff :
    (∀ polls : Nat → PollOutcome, (∀ i, i < 8 → polls i = .nonObject) →
        gatherTelemetry polls = (none, backoffDelays 0 8)) ∧
    (∀ (polls : Nat → PollOutcome) (k : Nat), k < 8 →
        (∀ i, i < k → polls i = .nonObject) → polls k = .cleared →
        gatherTelemetry polls = (none, backoffDelays 0 k)) ∧
    (∀ (polls : Nat → PollOutcome) (k : Nat) (t : ProcessTelemetry), k < 8 →
        (∀ i, i < k → polls i = .nonObject) → polls k = .success t →
        gatherTelemetry polls =
          (some t, backoffDelays 0 k ++ [.report t, .forward t])) ∧
    backoffDelays 0 8 = [.delayMs 50, .delayMs 100, .delayMs 200, .delayMs 400,
      .delayMs 800, .delayMs 1600, .delayMs 3200, .delayMs 6400] ∧
    (∀ (i k : Nat) (e : GatherEvent), e ∈ backoffDelays i k → ∃ n, e = .delayMs n) := by
  refine ⟨?_, ?_, ?_, by decide, ?_⟩
  · intro polls hp
    have hs := gatherAux_skip polls 8 0 8 (by omega) (fun j hj => by
      have := hp j hj
      simpa using this)
    unfold gatherTelemetry
    rw [hs]
    simp [gatherAux]
  · intro polls k hk hp hcl
    have hs := gatherAux_skip polls k 0 8 (by omega) (fun j hj => by
      have := hp j hj
      simpa using this)
    have e1 : 8 - k = (7 - k) + 1 := by omega
    have e2 : 0 + k = k := by omega
    unfold gatherTelemetry
    rw [hs, e1, e2, gatherAux, hcl]
    simp
  · intro polls k t hk hp hsucc
    have hs := gatherAux_skip polls k 0 8 (by omega) (fun j hj => by
      have := hp j hj
      simpa using this)
    have e1 : 8 - k = (7 - k) + 1 := by omega
    have e2 : 0 + k = k := by omega
    unfold gatherTelemetry
    rw [hs, e1, e2, gatherAux, hsucc]
  · intro i k
    induction k generalizing i with
    | zero => intro e he; simp [backoffDelays] at he
    | succ k ih =>
      intro e he
      rw [backoffDelays] at he
      rcases List.mem_cons.mp he with h | h
      · exact ⟨50 * 2 ^ i, h⟩
      · exact ih (i + 1) e h

/-- Witness for C8: two transient polls then a success. -/
theorem telemetry_retry_backoff_witness :
    gatherTelemetry (fun i => if i < 2 then PollOutcome.nonObject
        else PollOutcome.success ⟨42, "v12.0.0", "x64"⟩) =
      (some ⟨42, "v12.0.0", "x64"⟩,
        backoffDelays 0 2 ++
          [.report ⟨42, "v12.0.0", "x64"⟩, .forward ⟨42, "v12.0.0", "x64"⟩]) :=
  telemetry_retry_backoff.2.2.1 _ 2 ⟨42, "v12.0.0", "x64"⟩ (by omega)
    (fun i hi => by simp [hi]) (by simp)

theorem lookupSeen_setSeen_preserves (seen : List (String × Option String)) (k : String)
    (v : Option String) (k2 : String) (h : (lookupSeen seen k2).isSome = true) :
    (lookupSeen (setSeen seen k v) k2).isSome = true := by
  induction seen with
  | nil => simp [lookupSeen] at h
  | cons hd tl ih =>
    obtain ⟨k1, v1⟩ := hd
    rw [setSeen]
    by_cases hk : k1 = k
    · rw [if_pos hk]
      subst hk
      by_cases hk2 : k1 = k2
      · simp [lookupSeen, hk2]
      · rw [lookupSeen] at h ⊢
        rw [if_neg hk2] at h ⊢
        exact h
    · rw [if_neg hk]
      by_cases hk2 : k1 = k2
      · simp [lookupSeen, hk2]
      · rw [lookupSeen] at h ⊢
        rw [if_neg hk2] at h ⊢
        exact ih h

theorem lookupSeen_setSeen_self (seen : List (String × Option String)) (k : String)
    (v : Option String) : lookupSeen (setSeen seen k v) k = some v := by
  induction seen with
  | nil => simp [setSeen, lookupSeen]
  | cons hd tl ih =>
    obtain ⟨k1, v1⟩ := hd
    by_cases hk : k1 = k
    · simp [setSeen, hk, lookupSeen]
    · simp [setSeen, hk, lookupSeen, ih]

/-- C10: the seen-openers map is never pruned: every lifetime operation
preserves every existing entry's key, whole operation sequences preserve
them, a handshake under an active run records the new target's declared
opener, and disconnect, stop, launch and restart leave the map untouched. -/
theorem seen_openers_never_pruned :
    (∀ (s : ManagerState) (op : ManagerOp) (k : String),
        (lookupSeen s.seenOpeners k).isSome = true →
        (lookupSeen (applyOp s op).seenOpeners k).isSome = true) ∧
    (∀ (s : ManagerState) (ops : List ManagerOp) (k : String),
        (lookupSeen s.seenOpeners k).isSome = true →
        (lookupSeen (applyOps s ops).seenOpeners k).isSome = true) ∧
    (∀ (s : ManagerState) (tid : String) (oid : Option String), s.hasRun = true →
        lookupSeen (applyOp s (.startSession tid oid)).seenOpeners tid = some oid) ∧
    (∀ (s : ManagerState) (tid : String),
        (applyOp s (.targetDisconnect tid)).seenOpeners = s.seenOpeners ∧
        (applyOp s .stopServer).seenOpeners = s.seenOpeners ∧
        (applyOp s .launchOp).seenOpeners = s.seenOpeners ∧
        (applyOp s .restartOp).seenOpeners = s.seenOpeners) := by
  have step : ∀ (s : ManagerState) (op : ManagerOp) (k : String),
      (lookupSeen s.seenOpeners k).isSome = true →
      (lookupSeen (applyOp s op).seenOpeners k).isSome = true := by
    intro s op k h
    cases op with
    | startSession tid oid =>
      by_cases hr : s.hasRun = true
      · simp [applyOp, hr]
        exact lookupSeen_setSeen_preserves s.seenOpeners tid oid k h
      · simp only [Bool.not_eq_true] at hr
        simp [applyOp, hr]
        exact h
    | targetDisconnect tid => simpa [applyOp] using h
    | stopServer => simpa [applyOp] using h
    | launchOp => simpa [applyOp] using h
    | restartOp => simpa [applyOp] using h
  refine ⟨step, ?_, ?_, ?_⟩
  · intro s ops
    induction ops generalizing s with
    | nil => intro k h; simpa [applyOps] using h
    | cons op rest ih =>
      intro k h
      have h1 := step s op k h
      have h2 := ih (applyOp s op) k h1
      simpa [applyOps] using h2
  · intro s tid oid hr
    simp [applyOp, hr, lookupSeen_setSeen_self]
  · intro s tid
    refine ⟨rfl, rfl, rfl, rfl⟩

/-- Witness for C10: a handshake, the opener's disconnect, a full stop and a
relaunch still leave the recorded opener entry present. -/
theorem seen_openers_never_pruned_witness :
    (lookupSeen (applyOps ⟨true, [], [("B", some "A")]⟩
        [.targetDisconnect "B", .stopServer, .launchOp]).seenOpeners "B").isSome = true :=
  seen_openers_never_pruned.2.1 ⟨true, [], [("B", some "A")]⟩
    [.targetDisconnect "B", .stopServer, .launchOp] "B" (by decide)

set_option maxRecDepth 10000 in
/-- C7 counterexample: on the first non-header Darwin sample line the parsed
record's command is the truncated binary column minus its leading slash, not
the first whitespace token of the full command line, and args is the entire
command line rather than what follows that token. -/
theorem darwin_first_token_counterexample :
    darwinParseLine ("  380     1 /usr/sbin/cfpref /usr/sbin/cfprefsd agent").data =
      some ⟨380, 1, "usr/sbin/cfpref", "/usr/sbin/cfprefsd agent"⟩ ∧
    firstToken "/usr/sbin/cfprefsd agent" = "/usr/sbin/cfprefsd" ∧
    afterFirstToken "/usr/sbin/cfprefsd agent" = "agent" ∧
    ("usr/sbin/cfpref" : String) ≠ "/usr/sbin/cfprefsd" ∧
    ("/usr/sbin/cfprefsd agent" : String) ≠ "agent" := by
  refine ⟨by decide, by decide, by decide, by decide, by decide⟩

set_option maxRecDepth 10000 in
/-- C7 amended: POSIX records take their command from the first whitespace
token of the full command line with args the remainder, while Darwin records
take the binary column with its leading slash removed as command and the
entire command line as args; both literal sample listings parse to exactly
the expected ordered records, and lookup folds them through the reducer in
the native output order. -/
theorem process_listing_parses :
    parseListing posixParseLine posixSampleListing = posixExpected ∧
    parseListing darwinParseLine darwinSampleListing = darwinExpected ∧
    processLookup posixParseLine posixSampleListing (fun e acc => acc ++ [e]) [] =
      posixExpected ∧
    processLookup darwinParseLine darwinSampleListing (fun e acc => acc ++ [e]) [] =
      darwinExpected ∧
    (∀ r ∈ posixExpected, r.args = "" ∨
      (firstToken (r.command ++ " " ++ r.args) = r.command ∧
        afterFirstToken (r.command ++ " " ++ r.args) = r.args)) := by
  refine ⟨by decide, by decide, by decide, by decide, by decide⟩
